import Mathlib

/-!
Shallow embedding of `jwst/outlier_detection/outlier_detection_spec.py`
(class `OutlierDetectionSpec`, method `do_detection`) and of the external
collaborators it invokes.  Pixel arrays are flattened `List ℚ`; Python
object references for metadata are modelled by an explicit heap of
metadata cells indexed by `Nat`, so that Python's reference-assignment
semantics (`median_model.meta = drizzled_models[0].meta`) is captured
faithfully.  Side effects (saving, removing files, comparisons) are
recorded in an event trace.  Collaborators whose bodies are not part of
the repository slice (`create_median`, `detect_outliers`,
`build_driz_weight`, the resampler) are modelled from the spec and say so
in their doc comments.
-/

namespace OutlierSpec

/-- Metadata of a data model; only the filename is relevant to the code
under study. -/
structure Meta where
  filename : String
deriving Repr, DecidableEq

/-- A data model (an exposure, or a drizzled mosaic): calibrated flux
values, per-pixel weight map, quality-flag (DQ) bitmask, and a reference
into the metadata heap (Python objects are shared by reference). -/
structure Model where
  data : List ℚ
  wht : List ℚ
  dq : List Nat
  metaRef : Nat
deriving Repr, DecidableEq

/-- The metadata heap: cell `r` holds the `Meta` object that any model
with `metaRef = r` sees.  Python attribute mutation on a shared meta
object is `List.set` on the cell. -/
structure Heap where
  cells : List Meta
deriving Repr, DecidableEq

/-- Observable events of a `do_detection` run, in program order. -/
inductive Event where
  | resample
  | saveMosaic (i : Nat) (fn : String)
  | createMedian
  | saveMedian (fn : String)
  | removeFile (i : Nat)
  | compare (i : Nat)
  | exposureError (i : Nat)
deriving Repr, DecidableEq

/-- Errors that abort or are reported by a run. -/
inductive DetError where
  | combineError
  | persistenceError (fn : String)
deriving Repr, DecidableEq

/-- Configuration options read from `kwargs` by `do_detection`. -/
structure Config where
  resample_data : Bool
  save_intermediate_results : Bool
  in_memory : Bool
  weight_type : Nat
  good_bits : Nat
  maskpt : ℚ
  snr : ℚ × ℚ
  scale : ℚ × ℚ
  backg : ℚ
deriving Repr, DecidableEq

/-- Environment of external collaborators: the path-naming function
`make_output_path`, an oracle telling whether writing a given file
succeeds, and an oracle telling whether processing a given exposure in
`detect_outliers` succeeds. -/
structure Env where
  makeOutputPath : String → String → String
  saveOk : String → Bool
  exposureOk : Nat → Bool

/-- Result of a `do_detection` run: the final input models, the final
metadata heap, the computed reference (median) image if one was built,
the heap reference held by the median model's metadata, the event trace,
and the error that aborted the run, if any. -/
structure RunResult where
  models : List Model
  heap : Heap
  median : Option (List (Option ℚ))
  medianMetaRef : Option Nat
  trace : List Event
  error : Option DetError
deriving Repr, DecidableEq

/-- Insert a rational into a sorted list, keeping it sorted. -/
def insertSorted (x : ℚ) : List ℚ → List ℚ
  | [] => [x]
  | y :: ys => if x ≤ y then x :: y :: ys else y :: insertSorted x ys

/-- Insertion sort on rationals. -/
def sortQ : List ℚ → List ℚ
  | [] => []
  | x :: xs => insertSorted x (sortQ xs)

/-- Median of a list of rationals: `none` on the empty list; on an
even count, the average of the two central values of the sorted list
(the spec's robust-median tie-break). -/
def medianQ (xs : List ℚ) : Option ℚ :=
  match sortQ xs with
  | [] => none
  | y :: ys =>
    let s := y :: ys
    let n := s.length
    if n % 2 = 1 then some (s.getD (n / 2) 0)
    else some ((s.getD (n / 2 - 1) 0 + s.getD (n / 2) 0) / 2)

/-- Modelled from the spec: `build_driz_weight` of `resample_utils` is
not in the repository slice.  Per the Weight Builder contract it converts
an exposure's quality flags and the `good_bits` policy into a
non-negative per-pixel weight map, zero meaning "no usable signal": a
pixel gets weight 1 when every set DQ bit is a good bit, else 0. -/
def build_driz_weight (cfg : Config) (m : Model) : List ℚ :=
  m.dq.map (fun d => if Nat.land d cfg.good_bits = d then (1 : ℚ) else 0)

/-- Modelled from the spec: `create_median` of `outlier_detection.utils`
is not in the repository slice.  Per the Median Combiner contract
(spec section 4.2), at each pixel position of the first mosaic's grid:
the reference weight is the median of the non-zero weights across the
stack; a member is included iff its weight is non-zero and at least
`maskpt` times the reference weight; the output is the median of the
included members' data values, or non-finite (`none`) when no member is
included (or no member has non-zero weight). -/
def create_median (stack : List Model) (maskpt : ℚ) : List (Option ℚ) :=
  match stack with
  | [] => []
  | m0 :: _ =>
    (List.range m0.data.length).map (fun p =>
      let nzw := stack.filterMap (fun m =>
        let w := m.wht.getD p 0
        if 0 < w then some w else none)
      match medianQ nzw with
      | none => none
      | some refw =>
        let included := stack.filterMap (fun m =>
          let w := m.wht.getD p 0
          if 0 < w ∧ maskpt * refw ≤ w then some (m.data.getD p 0) else none)
        medianQ included)

/-- Modelled from the spec: the Outlier Comparator (spec section 4.3) is
not in the repository slice.  Pixels where the native reference is
non-finite are skipped; otherwise the residual
`data − reference − backg` is tested against the two SNR thresholds with
a two-term noise sigma `scale.1 * |reference| + scale.2`. -/
def compare (dat : List ℚ) (ref : List (Option ℚ)) (snr : ℚ × ℚ)
    (scale : ℚ × ℚ) (backg : ℚ) : List Bool :=
  (List.range dat.length).map (fun p =>
    match ref.getD p none with
    | none => false
    | some r =>
      let resid := dat.getD p 0 - r - backg
      let sigma := scale.1 * |r| + scale.2
      decide (snr.1 * sigma < |resid| ∧ snr.2 * sigma < |resid|))

/-- The dedicated outlier bit OR-ed into the DQ array by the Mask
Writer (modelled from the spec; the concrete bit value is opaque to the
controller). -/
def OUTLIER_BIT : Nat := 16

/-- Modelled from the spec: the Mask Writer merges the outlier mask into
the exposure's DQ array with a bitwise OR of the outlier bit, touching
only pixels where the mask is true. -/
def maskWrite (dq : List Nat) (mask : List Bool) : List Nat :=
  (List.range dq.length).map (fun p =>
    if mask.getD p false then Nat.lor (dq.getD p 0) OUTLIER_BIT
    else dq.getD p 0)

/-- The per-exposure update applied by `detect_outliers` to an exposure
whose processing succeeds: OR the comparator's outlier mask into its DQ
array. -/
def dqUpdated (cfg : Config) (median : List (Option ℚ)) (m : Model) : Model :=
  { m with dq := maskWrite m.dq (compare m.data median cfg.snr cfg.scale cfg.backg) }

/-- The worker loop of `detect_outliers`, carrying the index of the
exposure being processed. -/
def detectGo (env : Env) (cfg : Config) (median : List (Option ℚ)) :
    Nat → List Model → List Model × List Event
  | _, [] => ([], [])
  | i, m :: rest =>
    let r := detectGo env cfg median (i + 1) rest
    if env.exposureOk i then
      (dqUpdated cfg median m :: r.1, Event.compare i :: r.2)
    else
      (m :: r.1, Event.exposureError i :: r.2)

/-- Modelled from the spec: `detect_outliers` of
`outlier_detection.utils` is not in the repository slice.  Per spec
section 4.1 step 7 and the error policy: for each exposure in turn,
obtain its native reference (the Back-Projector is an external contract,
pass-through here; identity when resampling was disabled), run the
Outlier Comparator, and OR the mask into the DQ array; a per-exposure
failure leaves that exposure unchanged, reports it, and the remaining
exposures continue. -/
def detect_outliers (env : Env) (cfg : Config) (models : List Model)
    (median : List (Option ℚ)) : List Model × List Event :=
  detectGo env cfg median 0 models

/-- Default metadata cell returned by total heap indexing. -/
def defaultMeta : Meta := { filename := "" }

/-- Default model returned by total list indexing. -/
def defaultModel : Model := { data := [], wht := [], dq := [], metaRef := 0 }

/-- Modelled from the spec: `ResampleSpecData(...).do_drizzle` is an
external collaborator (Mosaic Resampler contract).  It produces drizzled
mosaics as fresh model objects with fresh metadata objects (new heap
cells initialised from the source metadata); the geometric resampling
itself is out of scope and carried as pass-through pixel content. -/
def doDrizzle (inputs : List Model) (heap : Heap) : List Model × Heap :=
  let n := heap.cells.length
  let drizzled := (List.range inputs.length).map (fun i =>
    { inputs.getD i defaultModel with metaRef := n + i })
  let newCells := inputs.map (fun m => heap.cells.getD m.metaRef defaultMeta)
  (drizzled, { cells := heap.cells ++ newCells })

/-- The `save_intermediate_results` loop over drizzled models in the
`resample_data` branch of `do_detection`: each model's meta filename is
rewritten via `make_output_path(..., "_outlier_s2d.fits")` and the model
is saved; a save failure raises (aborts) after the earlier renames and
saves have already happened. -/
def saveMosaics (env : Env) : Nat → List Model → Heap →
    Heap × List Event × Option DetError
  | _, [], heap => (heap, [], none)
  | i, m :: rest, heap =>
    let old := (heap.cells.getD m.metaRef defaultMeta).filename
    let fn := env.makeOutputPath old "_outlier_s2d.fits"
    let heap1 : Heap := { cells := heap.cells.set m.metaRef { filename := fn } }
    if env.saveOk fn then
      let r := saveMosaics env (i + 1) rest heap1
      (r.1, Event.saveMosaic i fn :: r.2.1, r.2.2)
    else
      (heap1, [], some (DetError.persistenceError fn))

/-- The final phase of `do_detection`: the `detect_outliers` call that
flags outliers in the input models' DQ arrays. -/
def finishDetect (env : Env) (cfg : Config) (inputs : List Model)
    (heap : Heap) (md : List (Option ℚ)) (mref : Nat) (tr : List Event) :
    RunResult :=
  let r := detect_outliers env cfg inputs md
  { models := r.1, heap := heap, median := some md,
    medianMetaRef := some mref, trace := tr ++ r.2, error := none }

/-- The tail of `do_detection` from the median-model allocation
(`median_model = datamodels.ImageModel(drizzled_models[0].data.shape)`)
onwards.  `inputs` and `drizzled` are the same list when
`resample_data` was false (Python aliasing `drizzled_models =
input_models`).  Indexing `drizzled_models[0]` on an empty container
fails before any reference image is built. -/
def afterResample (env : Env) (cfg : Config) (inputs drizzled : List Model)
    (heap : Heap) (tr : List Event) : RunResult :=
  match drizzled with
  | [] =>
    { models := inputs, heap := heap, median := none, medianMetaRef := none,
      trace := tr, error := some DetError.combineError }
  | d0 :: _ =>
    let mref := d0.metaRef
    let basepath :=
      (heap.cells.getD ((inputs.headD d0).metaRef) defaultMeta).filename
    let medianPath := env.makeOutputPath basepath "median"
    let heap2 : Heap := { cells := heap.cells.set mref { filename := medianPath } }
    let md := create_median drizzled cfg.maskpt
    let tr2 := tr ++ [Event.createMedian]
    if cfg.save_intermediate_results then
      if env.saveOk medianPath then
        finishDetect env cfg inputs heap2 md mref
          (tr2 ++ [Event.saveMedian medianPath])
      else
        { models := inputs, heap := heap2, median := some md,
          medianMetaRef := some mref, trace := tr2,
          error := some (DetError.persistenceError medianPath) }
    else
      let tr3 :=
        if cfg.in_memory then tr2
        else tr2 ++ (List.range drizzled.length).map Event.removeFile
      finishDetect env cfg inputs heap2 md mref tr3

/-- `OutlierDetectionSpec.do_detection`: branch on `resample_data`
(resample into mosaics and optionally save them, or alias the inputs and
overwrite their weight maps with `build_driz_weight`), then allocate the
median model aliasing the first drizzled model's metadata, combine with
`create_median`, save the median or remove the drizzled files, and run
`detect_outliers` on the input models. -/
def do_detection (env : Env) (cfg : Config) (input_models : List Model)
    (heap : Heap) : RunResult :=
  if cfg.resample_data then
    let dz := doDrizzle input_models heap
    if cfg.save_intermediate_results then
      let r := saveMosaics env 0 dz.1 dz.2
      if r.2.2.isSome then
        { models := input_models, heap := r.1, median := none,
          medianMetaRef := none, trace := Event.resample :: r.2.1,
          error := r.2.2 }
      else
        afterResample env cfg input_models dz.1 r.1
          (Event.resample :: r.2.1)
    else
      afterResample env cfg input_models dz.1 dz.2 [Event.resample]
  else
    let aliased := input_models.map (fun m =>
      { m with wht := build_driz_weight cfg m })
    afterResample env cfg aliased aliased heap []

/-- A concrete environment for the example runs: the path-naming
collaborator appends the suffix, every write succeeds, every exposure
processes successfully. -/
def envOk : Env :=
  { makeOutputPath := fun b s => b ++ s,
    saveOk := fun _ => true,
    exposureOk := fun _ => true }

/-- A concrete configuration with resampling disabled and intermediates
neither saved nor kept in memory. -/
def cfgNoResample : Config :=
  { resample_data := false,
    save_intermediate_results := false,
    in_memory := false,
    weight_type := 0,
    good_bits := 0,
    maskpt := 7/10,
    snr := (5, 4),
    scale := (0, 2),
    backg := 0 }

/-- The same configuration with resampling enabled. -/
def cfgResample : Config := { cfgNoResample with resample_data := true }

/-- Concrete single-pixel exposures for the example runs. -/
def exA : Model := { data := [10], wht := [5], dq := [0], metaRef := 0 }

/-- A second concrete exposure. -/
def exB : Model := { data := [10], wht := [5], dq := [0], metaRef := 1 }

/-- A third concrete exposure. -/
def exC : Model := { data := [10], wht := [5], dq := [0], metaRef := 2 }

/-- A concrete exposure carrying an extreme outlier pixel. -/
def exD : Model := { data := [100], wht := [5], dq := [0], metaRef := 3 }

/-- A concrete metadata heap for the example runs. -/
def heap4 : Heap :=
  { cells := [{ filename := "a" }, { filename := "b" },
              { filename := "c" }, { filename := "d" }] }

/-- A second-pixel exposure with a different (larger) shape. -/
def exE : Model := { data := [10, 10], wht := [5, 5], dq := [0, 0], metaRef := 1 }

/-- An exposure whose weight map is zero everywhere. -/
def exZ : Model := { data := [3], wht := [0], dq := [0], metaRef := 0 }

/-- The concrete environment in which every write fails. -/
def envNoSave : Env := { envOk with saveOk := fun _ => false }

/-- The concrete environment in which processing exposure 0 fails. -/
def envFail0 : Env := { envOk with exposureOk := fun i => i != 0 }

/-- The no-resampling configuration with intermediate saving requested. -/
def cfgSaveNoResample : Config :=
  { cfgNoResample with save_intermediate_results := true }

/-- The metadata heap reference of `drizzled_models[0]`: a fresh cell
when resampling ran, the first input's own cell otherwise. -/
def firstDrizzledRef (cfg : Config) (inputs : List Model) (heap : Heap) : Nat :=
  if cfg.resample_data then heap.cells.length
  else (inputs.headD defaultModel).metaRef

/-- Characterisation of the models produced by the `detect_outliers`
loop: exposure `k` is DQ-updated when its oracle succeeds and untouched
otherwise. -/
theorem detectGo_models (env : Env) (cfg : Config) (median : List (Option ℚ)) :
    ∀ (ms : List Model) (i k : Nat),
      ((detectGo env cfg median i ms).1)[k]? =
        (ms[k]?).map (fun m =>
          if env.exposureOk (i + k) then dqUpdated cfg median m else m)
  | [], i, k => by simp [detectGo]
  | m :: rest, i, 0 => by
    cases h : env.exposureOk i <;> simp [detectGo, h]
  | m :: rest, i, k + 1 => by
    have ih := detectGo_models env cfg median rest (i + 1) k
    have harith : i + 1 + k = i + (k + 1) := by omega
    cases h : env.exposureOk i <;>
      simpa [detectGo, h, harith] using ih

/-- Any field of a model that is untouched by a DQ update is preserved
across the `detect_outliers` loop. -/
theorem detectGo_preserves (env : Env) (cfg : Config)
    (median : List (Option ℚ)) {α : Type} (f : Model → α)
    (hf : ∀ m d, f { m with dq := d } = f m)
    (ms : List Model) (i k : Nat) :
    (((detectGo env cfg median i ms).1)[k]?).map f = (ms[k]?).map f := by
  rw [detectGo_models]
  cases hm : ms[k]? with
  | none => rfl
  | some m =>
    simp only [Option.map_some']
    by_cases h : env.exposureOk (i + k) = true
    · simp [h, dqUpdated, hf]
    · simp [h]

/-- Every event emitted by the `detect_outliers` loop is a comparison or
a per-exposure error report. -/
theorem detectGo_events (env : Env) (cfg : Config) (median : List (Option ℚ)) :
    ∀ (ms : List Model) (i : Nat) (e : Event),
      e ∈ (detectGo env cfg median i ms).2 →
      (∃ j, e = Event.compare j) ∨ (∃ j, e = Event.exposureError j)
  | [], i, e => by simp [detectGo]
  | m :: rest, i, e => by
    have ih := detectGo_events env cfg median rest (i + 1) e
    cases h : env.exposureOk i <;>
      simp only [detectGo, h] <;> intro hmem <;>
      rcases List.mem_cons.mp (by simpa using hmem) with rfl | htail
    · exact Or.inr ⟨i, rfl⟩
    · exact ih htail
    · exact Or.inl ⟨i, rfl⟩
    · exact ih htail

/-- A successfully processed exposure produces a comparison event. -/
theorem detectGo_mem_compare (env : Env) (cfg : Config)
    (median : List (Option ℚ)) :
    ∀ (ms : List Model) (i k : Nat), k < ms.length →
      env.exposureOk (i + k) = true →
      Event.compare (i + k) ∈ (detectGo env cfg median i ms).2
  | [], i, k, hk, _ => by simp at hk
  | m :: rest, i, 0, _, hok => by
    simp only [Nat.add_zero] at hok
    simp [detectGo, hok]
  | m :: rest, i, k + 1, hk, hok => by
    have harith : i + 1 + k = i + (k + 1) := by omega
    have ih := detectGo_mem_compare env cfg median rest (i + 1) k
      (by simpa using Nat.lt_of_succ_lt_succ hk) (by rw [harith]; exact hok)
    rw [harith] at ih
    cases h : env.exposureOk i <;> simp [detectGo, h] <;> exact ih

/-- A failing exposure produces a per-exposure error report event. -/
theorem detectGo_mem_error (env : Env) (cfg : Config)
    (median : List (Option ℚ)) :
    ∀ (ms : List Model) (i k : Nat), k < ms.length →
      env.exposureOk (i + k) = false →
      Event.exposureError (i + k) ∈ (detectGo env cfg median i ms).2
  | [], i, k, hk, _ => by simp at hk
  | m :: rest, i, 0, _, hok => by
    simp only [Nat.add_zero] at hok
    simp [detectGo, hok]
  | m :: rest, i, k + 1, hk, hok => by
    have harith : i + 1 + k = i + (k + 1) := by omega
    have ih := detectGo_mem_error env cfg median rest (i + 1) k
      (by simpa using Nat.lt_of_succ_lt_succ hk) (by rw [harith]; exact hok)
    rw [harith] at ih
    cases h : env.exposureOk i <;> simp [detectGo, h] <;> exact ih

/-- Every event emitted by the mosaic-saving loop is a mosaic save. -/
theorem saveMosaics_events (env : Env) :
    ∀ (i : Nat) (ms : List Model) (h : Heap) (e : Event),
      e ∈ (saveMosaics env i ms h).2.1 → ∃ j fn, e = Event.saveMosaic j fn
  | i, [], h, e => by simp [saveMosaics]
  | i, m :: rest, h, e => by
    simp only [saveMosaics]
    split
    · intro hmem
      rcases List.mem_cons.mp hmem with rfl | htail
      · exact ⟨i, _, rfl⟩
      · exact saveMosaics_events env (i + 1) rest _ e htail
    · intro hmem
      simp at hmem

/-- When every write succeeds, the mosaic-saving loop reports no
error. -/
theorem saveMosaics_ok_none (env : Env) (hok : ∀ fn, env.saveOk fn = true) :
    ∀ (i : Nat) (ms : List Model) (h : Heap),
      (saveMosaics env i ms h).2.2 = none
  | i, [], h => by simp [saveMosaics]
  | i, m :: rest, h => by
    simp only [saveMosaics, hok, if_true]
    exact saveMosaics_ok_none env hok (i + 1) rest _

/-- When every write succeeds, every model in the list gets a mosaic
save event at its position. -/
theorem saveMosaics_ok_mem (env : Env) (hok : ∀ fn, env.saveOk fn = true) :
    ∀ (i : Nat) (ms : List Model) (h : Heap) (k : Nat), k < ms.length →
      ∃ fn, Event.saveMosaic (i + k) fn ∈ (saveMosaics env i ms h).2.1
  | i, [], h, k, hk => by simp at hk
  | i, m :: rest, h, 0, _ => by
    refine ⟨env.makeOutputPath
      (h.cells.getD m.metaRef defaultMeta).filename "_outlier_s2d.fits", ?_⟩
    simp only [saveMosaics, hok, if_true, Nat.add_zero]
    exact List.mem_cons_self _ _
  | i, m :: rest, h, k + 1, hk => by
    obtain ⟨fn, hfn⟩ := saveMosaics_ok_mem env hok (i + 1) rest
      { cells := h.cells.set m.metaRef
          { filename := env.makeOutputPath
              (h.cells.getD m.metaRef defaultMeta).filename "_outlier_s2d.fits" } }
      k (by simpa using Nat.lt_of_succ_lt_succ hk)
    refine ⟨fn, ?_⟩
    have harith : i + 1 + k = i + (k + 1) := by omega
    rw [harith] at hfn
    simp only [saveMosaics, hok, if_true]
    exact List.mem_cons_of_mem _ hfn

/-- The mosaic-saving loop touches only the metadata cells of the models
it is given. -/
theorem saveMosaics_cells (env : Env) :
    ∀ (i : Nat) (ms : List Model) (h : Heap) (r : Nat),
      (∀ m ∈ ms, r ≠ m.metaRef) →
      ((saveMosaics env i ms h).1).cells[r]? = h.cells[r]?
  | i, [], h, r, _ => rfl
  | i, m :: rest, h, r, hr => by
    have hne : r ≠ m.metaRef := hr m (List.mem_cons_self m rest)
    by_cases hs : env.saveOk (env.makeOutputPath
        (h.cells.getD m.metaRef defaultMeta).filename "_outlier_s2d.fits") = true
    · simp only [saveMosaics, hs, if_true]
      rw [saveMosaics_cells env (i + 1) rest _ r
        (fun m' hm' => hr m' (List.mem_cons_of_mem m hm'))]
      exact List.getElem?_set_ne (fun hc => hne hc.symm)
    · simp only [saveMosaics, hs, if_false]
      exact List.getElem?_set_ne (fun hc => hne hc.symm)

/-- The mosaic-saving loop preserves the number of heap cells. -/
theorem saveMosaics_cells_length (env : Env) :
    ∀ (i : Nat) (ms : List Model) (h : Heap),
      ((saveMosaics env i ms h).1).cells.length = h.cells.length
  | i, [], h => rfl
  | i, m :: rest, h => by
    by_cases hs : env.saveOk (env.makeOutputPath
        (h.cells.getD m.metaRef defaultMeta).filename "_outlier_s2d.fits") = true
    · simp only [saveMosaics, hs, if_true]
      rw [saveMosaics_cells_length env (i + 1) rest _]
      exact List.length_set h.cells _ _
    · simp only [saveMosaics, hs, if_false]
      exact List.length_set h.cells _ _

/-- The resampler produces one mosaic per input. -/
theorem doDrizzle_length (inputs : List Model) (heap : Heap) :
    (doDrizzle inputs heap).1.length = inputs.length := by
  simp [doDrizzle]

/-- The resampler only appends fresh metadata cells. -/
theorem doDrizzle_cells_length (inputs : List Model) (heap : Heap) :
    (doDrizzle inputs heap).2.cells.length =
      heap.cells.length + inputs.length := by
  simp [doDrizzle]

/-- Pre-existing metadata cells are unchanged by the resampler. -/
theorem doDrizzle_cells_lt (inputs : List Model) (heap : Heap) (r : Nat)
    (hr : r < heap.cells.length) :
    (doDrizzle inputs heap).2.cells[r]? = heap.cells[r]? := by
  simp only [doDrizzle]
  exact List.getElem?_append_left hr

/-- Every drizzled model's metadata reference is fresh: at or beyond the
original heap size. -/
theorem doDrizzle_metaRef_ge (inputs : List Model) (heap : Heap)
    (m : Model) (hm : m ∈ (doDrizzle inputs heap).1) :
    heap.cells.length ≤ m.metaRef := by
  simp only [doDrizzle, List.mem_map, List.mem_range] at hm
  obtain ⟨i, _, rfl⟩ := hm
  exact Nat.le_add_right _ _

/-- The models produced by the resampler, position by position. -/
theorem doDrizzle_models (inputs : List Model) (heap : Heap) (k : Nat)
    (hk : k < inputs.length) :
    ((doDrizzle inputs heap).1)[k]? =
      some { inputs.getD k defaultModel with
             metaRef := heap.cells.length + k } := by
  simp [doDrizzle, List.getElem?_range hk]

/-- The median image has the shape of the first mosaic's data array. -/
theorem create_median_length (m0 : Model) (rest : List Model) (mp : ℚ) :
    (create_median (m0 :: rest) mp).length = m0.data.length := by
  simp [create_median]

/-- In a trace of the form `A ++ createMedian :: B` where `A` holds no
comparison events, every comparison event is strictly preceded by the
reference-image creation event. -/
theorem compare_after_median_split (A B : List Event)
    (hA : ∀ j, Event.compare j ∉ A) (p j : Nat)
    (hp : (A ++ Event.createMedian :: B)[p]? = some (Event.compare j)) :
    ∃ q, q < p ∧
      (A ++ Event.createMedian :: B)[q]? = some Event.createMedian := by
  rcases Nat.lt_trichotomy p A.length with hlt | heq | hgt
  · rw [List.getElem?_append_left hlt] at hp
    exact absurd (List.getElem?_mem hp) (hA j)
  · rw [List.getElem?_append_right (Nat.le_of_eq heq.symm), heq,
      Nat.sub_self] at hp
    simp at hp
  · refine ⟨A.length, hgt, ?_⟩
    rw [List.getElem?_append_right (Nat.le_refl _), Nat.sub_self]
    simp

/-- Every comparison event in the tail phase of the run is strictly
preceded by the reference-image creation event, provided the trace
prefix carried in holds no comparison events. -/
theorem afterResample_compare_after (env : Env) (cfg : Config)
    (inputs drizzled : List Model) (heap : Heap) (tr : List Event)
    (hA : ∀ j, Event.compare j ∉ tr) (p j : Nat)
    (hp : (afterResample env cfg inputs drizzled heap tr).trace[p]? =
      some (Event.compare j)) :
    ∃ q, q < p ∧
      (afterResample env cfg inputs drizzled heap tr).trace[q]? =
        some Event.createMedian := by
  cases drizzled with
  | nil => exact absurd (List.getElem?_mem hp) (hA j)
  | cons d0 ds =>
    cases hs : cfg.save_intermediate_results with
    | true =>
      cases hok : env.saveOk (env.makeOutputPath
          ((heap.cells.getD ((inputs.headD d0).metaRef) defaultMeta).filename)
          "median") with
      | true =>
        simp only [afterResample, finishDetect, hs, hok, if_true,
          List.append_assoc, List.cons_append, List.nil_append] at hp ⊢
        exact compare_after_median_split tr _ hA p j hp
      | false =>
        simp only [afterResample, hs, hok, if_true, Bool.false_eq_true,
          if_false, List.append_assoc, List.cons_append,
          List.nil_append] at hp ⊢
        exact compare_after_median_split tr _ hA p j hp
    | false =>
      cases hm : cfg.in_memory with
      | true =>
        simp only [afterResample, finishDetect, hs, hm, if_true,
          Bool.false_eq_true, if_false, List.append_assoc,
          List.cons_append, List.nil_append] at hp ⊢
        exact compare_after_median_split tr _ hA p j hp
      | false =>
        simp only [afterResample, finishDetect, hs, hm, Bool.false_eq_true,
          if_false, List.append_assoc, List.cons_append,
          List.nil_append] at hp ⊢
        exact compare_after_median_split tr _ hA p j hp

/-- The trace prefix carried into the tail phase survives into the
final trace. -/
theorem afterResample_trace_mem (env : Env) (cfg : Config)
    (inputs drizzled : List Model) (heap : Heap) (tr : List Event)
    (e : Event) (he : e ∈ tr) :
    e ∈ (afterResample env cfg inputs drizzled heap tr).trace := by
  cases drizzled with
  | nil => exact he
  | cons d0 ds =>
    cases hs : cfg.save_intermediate_results with
    | true =>
      cases hok : env.saveOk (env.makeOutputPath
          ((heap.cells.getD ((inputs.headD d0).metaRef) defaultMeta).filename)
          "median") with
      | true =>
        simp only [afterResample, finishDetect, hs, hok, if_true,
          List.append_assoc]
        exact List.mem_append_left _ he
      | false =>
        simp only [afterResample, hs, hok, if_true, Bool.false_eq_true,
          if_false]
        exact List.mem_append_left _ he
    | false =>
      cases hm : cfg.in_memory with
      | true =>
        simp only [afterResample, finishDetect, hs, hm, if_true,
          Bool.false_eq_true, if_false, List.append_assoc]
        exact List.mem_append_left _ he
      | false =>
        simp only [afterResample, finishDetect, hs, hm, Bool.false_eq_true,
          if_false, List.append_assoc]
        exact List.mem_append_left _ he

/-- Classification of the events emitted by the tail phase: anything not
in the carried-in prefix is the median creation, a median save, a file
removal, a comparison, or a per-exposure error report. -/
theorem afterResample_events (env : Env) (cfg : Config)
    (inputs drizzled : List Model) (heap : Heap) (tr : List Event)
    (e : Event)
    (he : e ∈ (afterResample env cfg inputs drizzled heap tr).trace) :
    e ∈ tr ∨ e = Event.createMedian ∨ (∃ fn, e = Event.saveMedian fn) ∨
    (∃ i, e = Event.removeFile i) ∨ (∃ i, e = Event.compare i) ∨
    (∃ i, e = Event.exposureError i) := by
  cases drizzled with
  | nil => exact Or.inl he
  | cons d0 ds =>
    have hdet : ∀ md, e ∈ (detect_outliers env cfg inputs md).2 →
        (∃ i, e = Event.compare i) ∨ (∃ i, e = Event.exposureError i) :=
      fun md h => detectGo_events env cfg md inputs 0 e h
    cases hs : cfg.save_intermediate_results with
    | true =>
      cases hok : env.saveOk (env.makeOutputPath
          ((heap.cells.getD ((inputs.headD d0).metaRef) defaultMeta).filename)
          "median") with
      | true =>
        simp only [afterResample, finishDetect, hs, hok, if_true,
          List.append_assoc, List.cons_append, List.nil_append] at he
        rcases List.mem_append.mp he with htr | hrest
        · exact Or.inl htr
        · rcases List.mem_cons.mp hrest with rfl | hrest2
          · exact Or.inr (Or.inl rfl)
          · rcases List.mem_cons.mp hrest2 with rfl | hd
            · exact Or.inr (Or.inr (Or.inl ⟨_, rfl⟩))
            · rcases hdet _ hd with h | h
              · exact Or.inr (Or.inr (Or.inr (Or.inr (Or.inl h))))
              · exact Or.inr (Or.inr (Or.inr (Or.inr (Or.inr h))))
      | false =>
        simp only [afterResample, hs, hok, if_true, Bool.false_eq_true,
          if_false, List.append_assoc, List.cons_append,
          List.nil_append] at he
        rcases List.mem_append.mp he with htr | hrest
        · exact Or.inl htr
        · rcases List.mem_cons.mp hrest with rfl | hnil
          · exact Or.inr (Or.inl rfl)
          · simp at hnil
    | false =>
      cases hm : cfg.in_memory with
      | true =>
        simp only [afterResample, finishDetect, hs, hm, if_true,
          Bool.false_eq_true, if_false, List.append_assoc,
          List.cons_append, List.nil_append] at he
        rcases List.mem_append.mp he with htr | hrest
        · exact Or.inl htr
        · rcases List.mem_cons.mp hrest with rfl | hd
          · exact Or.inr (Or.inl rfl)
          · rcases hdet _ hd with h | h
            · exact Or.inr (Or.inr (Or.inr (Or.inr (Or.inl h))))
            · exact Or.inr (Or.inr (Or.inr (Or.inr (Or.inr h))))
      | false =>
        simp only [afterResample, finishDetect, hs, hm, Bool.false_eq_true,
          if_false, List.append_assoc, List.cons_append,
          List.nil_append] at he
        rcases List.mem_append.mp he with htr | hrest
        · exact Or.inl htr
        · rcases List.mem_cons.mp hrest with rfl | hrest2
          · exact Or.inr (Or.inl rfl)
          · rcases List.mem_append.mp hrest2 with hrm | hd
            · rcases List.mem_map.mp hrm with ⟨i, _, rfl⟩
              exact Or.inr (Or.inr (Or.inr (Or.inl ⟨i, rfl⟩)))
            · rcases hdet _ hd with h | h
              · exact Or.inr (Or.inr (Or.inr (Or.inr (Or.inl h))))
              · exact Or.inr (Or.inr (Or.inr (Or.inr (Or.inr h))))

/-- The tail phase touches only the metadata cell of the first drizzled
model (the one aliased by the median model). -/
theorem afterResample_cells (env : Env) (cfg : Config)
    (inputs drizzled : List Model) (heap : Heap) (tr : List Event) (r : Nat)
    (hr : ∀ m ∈ drizzled, r ≠ m.metaRef) :
    (afterResample env cfg inputs drizzled heap tr).heap.cells[r]? =
      heap.cells[r]? := by
  cases drizzled with
  | nil => rfl
  | cons d0 ds =>
    have hne : r ≠ d0.metaRef := hr d0 (List.mem_cons_self d0 ds)
    have hset : (heap.cells.set d0.metaRef
        { filename := env.makeOutputPath
            ((heap.cells.getD ((inputs.headD d0).metaRef) defaultMeta).filename)
            "median" })[r]? = heap.cells[r]? :=
      List.getElem?_set_ne (fun hc => hne hc.symm)
    cases hs : cfg.save_intermediate_results with
    | true =>
      cases hok : env.saveOk (env.makeOutputPath
          ((heap.cells.getD ((inputs.headD d0).metaRef) defaultMeta).filename)
          "median") with
      | true =>
        simp only [afterResample, finishDetect, hs, hok, if_true]
        exact hset
      | false =>
        simp only [afterResample, hs, hok, if_true, Bool.false_eq_true,
          if_false]
        exact hset
    | false =>
      cases hm : cfg.in_memory with
      | true =>
        simp only [afterResample, finishDetect, hs, hm, if_true,
          Bool.false_eq_true, if_false]
        exact hset
      | false =>
        simp only [afterResample, finishDetect, hs, hm, Bool.false_eq_true,
          if_false]
        exact hset

/-- Any per-model field untouched by a DQ update survives the tail
phase: only `detect_outliers` rewrites the models, and it rewrites only
DQ arrays. -/
theorem afterResample_preserves (env : Env) (cfg : Config)
    (inputs drizzled : List Model) (heap : Heap) (tr : List Event)
    {α : Type} (f : Model → α) (hf : ∀ m d, f { m with dq := d } = f m)
    (k : Nat) :
    (((afterResample env cfg inputs drizzled heap tr).models)[k]?).map f =
      (inputs[k]?).map f := by
  cases drizzled with
  | nil => rfl
  | cons d0 ds =>
    have hdet : ∀ md, (((detect_outliers env cfg inputs md).1)[k]?).map f =
        (inputs[k]?).map f :=
      fun md => detectGo_preserves env cfg md f hf inputs 0 k
    cases hs : cfg.save_intermediate_results with
    | true =>
      cases hok : env.saveOk (env.makeOutputPath
          ((heap.cells.getD ((inputs.headD d0).metaRef) defaultMeta).filename)
          "median") with
      | true =>
        simp only [afterResample, finishDetect, hs, hok, if_true]
        exact hdet _
      | false =>
        simp only [afterResample, hs, hok, if_true, Bool.false_eq_true,
          if_false]
    | false =>
      cases hm : cfg.in_memory with
      | true =>
        simp only [afterResample, finishDetect, hs, hm, if_true,
          Bool.false_eq_true, if_false]
        exact hdet _
      | false =>
        simp only [afterResample, finishDetect, hs, hm, Bool.false_eq_true,
          if_false]
        exact hdet _

/-- On a non-empty drizzled stack the tail phase always: computes the
median image of the stack, stores the median model's metadata in the
first drizzled model's cell (Python reference assignment), and writes
the median output path into that shared cell. -/
theorem afterResample_success (env : Env) (cfg : Config)
    (inputs : List Model) (d0 : Model) (ds : List Model) (heap : Heap)
    (tr : List Event) :
    (afterResample env cfg inputs (d0 :: ds) heap tr).median =
      some (create_median (d0 :: ds) cfg.maskpt) ∧
    (afterResample env cfg inputs (d0 :: ds) heap tr).medianMetaRef =
      some d0.metaRef ∧
    (afterResample env cfg inputs (d0 :: ds) heap tr).heap.cells =
      heap.cells.set d0.metaRef
        { filename := env.makeOutputPath
            ((heap.cells.getD ((inputs.headD d0).metaRef) defaultMeta).filename)
            "median" } := by
  cases hs : cfg.save_intermediate_results with
  | true =>
    cases hok : env.saveOk (env.makeOutputPath
        ((heap.cells.getD ((inputs.headD d0).metaRef) defaultMeta).filename)
        "median") with
    | true =>
      simp only [afterResample, finishDetect, hs, hok, if_true]
      exact ⟨trivial, trivial, trivial⟩
    | false =>
      simp only [afterResample, hs, hok, if_true, Bool.false_eq_true,
        if_false]
      exact ⟨trivial, trivial, trivial⟩
  | false =>
    cases hm : cfg.in_memory with
    | true =>
      simp only [afterResample, finishDetect, hs, hm, if_true,
        Bool.false_eq_true, if_false]
      exact ⟨trivial, trivial, trivial⟩
    | false =>
      simp only [afterResample, finishDetect, hs, hm, Bool.false_eq_true,
        if_false]
      exact ⟨trivial, trivial, trivial⟩

/-- When intermediates are neither saved nor kept in memory, the tail
phase records the median creation at position `tr.length` and the
removal of drizzled file `i` at position `tr.length + 1 + i`. -/
theorem afterResample_remove (env : Env) (cfg : Config)
    (inputs : List Model) (d0 : Model) (ds : List Model) (heap : Heap)
    (tr : List Event) (hs : cfg.save_intermediate_results = false)
    (hm : cfg.in_memory = false) (i : Nat) (hi : i < (d0 :: ds).length) :
    (afterResample env cfg inputs (d0 :: ds) heap tr).trace[tr.length]? =
      some Event.createMedian ∧
    (afterResample env cfg inputs (d0 :: ds) heap
        tr).trace[tr.length + 1 + i]? = some (Event.removeFile i) := by
  simp only [afterResample, finishDetect, hs, hm, Bool.false_eq_true,
    if_false, List.append_assoc, List.cons_append, List.nil_append]
  constructor
  · rw [List.getElem?_append_right (Nat.le_refl _), Nat.sub_self]
    simp
  · rw [List.getElem?_append_right
      (show tr.length ≤ tr.length + 1 + i by omega)]
    have h1 : tr.length + 1 + i - tr.length = i + 1 := by omega
    rw [h1, List.getElem?_cons_succ]
    rw [List.getElem?_append_left
      (by simpa using hi)]
    simp [List.getElem?_range (by simpa using hi)]

/-- Claim C1: in every run of `do_detection` the reference (median)
image computation completes before any outlier comparison begins —
every comparison event in the trace is strictly preceded by the
median-creation event. -/
theorem C1_reference_before_comparison (env : Env) (cfg : Config)
    (inputs : List Model) (heap : Heap) (p j : Nat)
    (hp : (do_detection env cfg inputs heap).trace[p]? =
      some (Event.compare j)) :
    ∃ q, q < p ∧ (do_detection env cfg inputs heap).trace[q]? =
      some Event.createMedian := by
  cases hres : cfg.resample_data with
  | false =>
    simp only [do_detection, hres, Bool.false_eq_true, if_false] at hp ⊢
    exact afterResample_compare_after env cfg _ _ heap [] (by simp) p j hp
  | true =>
    cases hsave : cfg.save_intermediate_results with
    | false =>
      simp only [do_detection, hres, hsave, if_true, Bool.false_eq_true,
        if_false] at hp ⊢
      refine afterResample_compare_after env cfg _ _ _ [Event.resample]
        ?_ p j hp
      intro j' hj'
      simp at hj'
    | true =>
      simp only [do_detection, hres, hsave, if_true] at hp ⊢
      cases herr : (saveMosaics env 0 (doDrizzle inputs heap).1
          (doDrizzle inputs heap).2).2.2 with
      | some e =>
        simp only [herr, Option.isSome_some, if_true] at hp
        have hmem := List.getElem?_mem hp
        rcases List.mem_cons.mp hmem with h | h
        · simp at h
        · rcases saveMosaics_events env 0 _ _ _ h with ⟨j2, fn, hjj⟩
          simp at hjj
      | none =>
        simp only [herr, Option.isSome_none, Bool.false_eq_true,
          if_false] at hp ⊢
        refine afterResample_compare_after env cfg _ _ _
          (Event.resample :: (saveMosaics env 0 (doDrizzle inputs heap).1
            (doDrizzle inputs heap).2).2.1) ?_ p j hp
        intro j' hj'
        rcases List.mem_cons.mp hj' with h | h
        · simp at h
        · rcases saveMosaics_events env 0 _ _ _ h with ⟨j2, fn, hjj⟩
          simp at hjj

/-- Witness for C1 at a concrete run: position 2 of the trace is a
comparison and it is preceded by the median-creation event. -/
theorem C1_reference_before_comparison_witness :
    (do_detection envOk cfgNoResample [exA] heap4).trace[2]? =
      some (Event.compare 0) ∧
    ∃ q, q < 2 ∧ (do_detection envOk cfgNoResample [exA] heap4).trace[q]? =
      some Event.createMedian :=
  ⟨by decide,
   C1_reference_before_comparison envOk cfgNoResample [exA] heap4 2 0
     (by decide)⟩

/-- Claim C8: running `do_detection` on an empty exposure set is fatal:
the run fails (indexing the empty drizzled container) before any
reference image is built — no median, no median-creation event — and no
exposure DQ array is modified (no comparison is ever performed). -/
theorem C8_empty_input_fatal (env : Env) (cfg : Config) (heap : Heap) :
    (do_detection env cfg [] heap).error = some DetError.combineError ∧
    (do_detection env cfg [] heap).median = none ∧
    (do_detection env cfg [] heap).models = [] ∧
    Event.createMedian ∉ (do_detection env cfg [] heap).trace ∧
    ∀ j, Event.compare j ∉ (do_detection env cfg [] heap).trace := by
  cases hres : cfg.resample_data with
  | false =>
    simp [do_detection, hres, afterResample]
  | true =>
    cases hsave : cfg.save_intermediate_results with
    | false => simp [do_detection, hres, hsave, doDrizzle, afterResample]
    | true =>
      simp [do_detection, hres, hsave, doDrizzle, saveMosaics, afterResample]

/-- Claim C9 (spec-modelled): at a pixel position where every stack
member has zero weight, the combined reference image is non-finite, and
the Outlier Comparator never flags that position for any exposure. -/
theorem C9_zero_weight_not_flagged (stack : List Model) (maskpt : ℚ)
    (p : Nat) (hz : ∀ m ∈ stack, m.wht.getD p 0 = 0) :
    (create_median stack maskpt).getD p none = none ∧
    ∀ (dat : List ℚ) (snr scale : ℚ × ℚ) (backg : ℚ),
      (compare dat (create_median stack maskpt) snr scale backg).getD p
        false = false := by
  have hmed : (create_median stack maskpt).getD p none = none := by
    cases stack with
    | nil => simp [create_median]
    | cons m0 rest =>
      rw [List.getD_eq_getElem?_getD]
      simp only [create_median, List.getElem?_map]
      by_cases hp : p < m0.data.length
      · rw [List.getElem?_range hp]
        simp only [Option.map_some', Option.getD_some]
        have hnil : ((m0 :: rest).filterMap (fun m =>
            if 0 < m.wht.getD p 0 then some (m.wht.getD p 0) else none))
            = [] := by
          rw [List.filterMap_eq_nil_iff]
          intro m hm
          rw [hz m hm]
          simp
        rw [hnil]
        simp [medianQ, sortQ]
      · have hnone : (List.range m0.data.length)[p]? = none := by
          simp only [List.getElem?_eq_none_iff, List.length_range]
          omega
        rw [hnone]
        simp
  refine ⟨hmed, ?_⟩
  intro dat snr scale backg
  rw [List.getD_eq_getElem?_getD]
  simp only [compare, List.getElem?_map]
  by_cases hp : p < dat.length
  · rw [List.getElem?_range hp]
    simp only [Option.map_some', Option.getD_some]
    rw [hmed]
  · have hnone : (List.range dat.length)[p]? = none := by
      simp only [List.getElem?_eq_none_iff, List.length_range]
      omega
    rw [hnone]
    simp

/-- Witness for C9 at a concrete stack whose only member has zero
weight at position 0. -/
theorem C9_zero_weight_not_flagged_witness :
    (∀ m ∈ [exZ], m.wht.getD 0 0 = 0) ∧
    ((create_median [exZ] (7/10)).getD 0 none = none ∧
     ∀ (dat : List ℚ) (snr scale : ℚ × ℚ) (backg : ℚ),
       (compare dat (create_median [exZ] (7/10)) snr scale backg).getD 0
         false = false) :=
  ⟨fun m hm => by rcases List.mem_singleton.mp hm with rfl; decide,
   C9_zero_weight_not_flagged [exZ] (7/10) 0
     (fun m hm => by rcases List.mem_singleton.mp hm with rfl; decide)⟩

/-- Claim C7 (spec-modelled): once the shared reference exists, a
failure on one exposure is contained to it: the failing exposure is left
entirely unchanged, its error is reported, and every other exposure
whose processing succeeds still gets its comparison. -/
theorem C7_per_exposure_containment (env : Env) (cfg : Config)
    (models : List Model) (median : List (Option ℚ)) (i : Nat)
    (hf : env.exposureOk i = false) (hi : i < models.length) :
    ((detect_outliers env cfg models median).1)[i]? = models[i]? ∧
    Event.exposureError i ∈ (detect_outliers env cfg models median).2 ∧
    ∀ j, j < models.length → env.exposureOk j = true →
      Event.compare j ∈ (detect_outliers env cfg models median).2 := by
  refine ⟨?_, ?_, ?_⟩
  · rw [detect_outliers, detectGo_models]
    cases models[i]? <;> simp [hf]
  · have h := detectGo_mem_error env cfg median models 0 i hi
      (by simpa using hf)
    simpa [detect_outliers] using h
  · intro j hj hjok
    have h := detectGo_mem_compare env cfg median models 0 j hj
      (by simpa using hjok)
    simpa [detect_outliers] using h

/-- Witness for C7: exposure 0 fails, is unchanged and reported;
exposure 1 succeeds and is still compared. -/
theorem C7_per_exposure_containment_witness :
    envFail0.exposureOk 0 = false ∧ 0 < [exA, exD].length ∧
    (((detect_outliers envFail0 cfgNoResample [exA, exD] [some 10]).1)[0]? =
      [exA, exD][0]? ∧
     Event.exposureError 0 ∈
       (detect_outliers envFail0 cfgNoResample [exA, exD] [some 10]).2 ∧
     ∀ j, j < [exA, exD].length → envFail0.exposureOk j = true →
       Event.compare j ∈
         (detect_outliers envFail0 cfgNoResample [exA, exD] [some 10]).2) :=
  ⟨by decide, by decide,
   C7_per_exposure_containment envFail0 cfgNoResample [exA, exD] [some 10] 0
     (by decide) (by decide)⟩

/-- Claim C2 as stated is false: with `resample_data = False` the code
overwrites each input exposure's weight map with `build_driz_weight`
(here `[5]` becomes `[1]`) and clobbers the first input's metadata
filename with the median output path, even though only DQ mutation is
claimed. -/
theorem C2_counterexample_wht_overwritten :
    ((do_detection envOk cfgNoResample [exA] heap4).models.map Model.wht ≠
      [exA].map Model.wht) ∧
    (do_detection envOk cfgNoResample [exA] heap4).heap.cells[0]? ≠
      heap4.cells[0]? := by decide

/-- Claim C2 amended: when `resample_data` is true, `do_detection`
mutates only DQ arrays — each exposure's data, weight map and metadata
reference are preserved, and every pre-existing metadata heap cell is
unchanged.  (With `resample_data = False` the code additionally
overwrites each input's weight map and the first input's metadata
filename.) -/
theorem C2_amended_only_dq_when_resampling (env : Env) (cfg : Config)
    (inputs : List Model) (heap : Heap)
    (hres : cfg.resample_data = true) :
    (∀ k : Nat, (((do_detection env cfg inputs heap).models)[k]?).map Model.data
        = (inputs[k]?).map Model.data ∧
      (((do_detection env cfg inputs heap).models)[k]?).map Model.wht
        = (inputs[k]?).map Model.wht ∧
      (((do_detection env cfg inputs heap).models)[k]?).map Model.metaRef
        = (inputs[k]?).map Model.metaRef) ∧
    (∀ r, r < heap.cells.length →
      (do_detection env cfg inputs heap).heap.cells[r]? = heap.cells[r]?) := by
  have hdz : ∀ r, r < heap.cells.length →
      ∀ m ∈ (doDrizzle inputs heap).1, r ≠ m.metaRef := by
    intro r hr m hm hc
    have := doDrizzle_metaRef_ge inputs heap m hm
    omega
  cases hsave : cfg.save_intermediate_results with
  | false =>
    simp only [do_detection, hres, hsave, if_true, Bool.false_eq_true,
      if_false]
    refine ⟨fun k => ⟨?_, ?_, ?_⟩, fun r hr => ?_⟩
    · exact afterResample_preserves env cfg inputs _ _ _ Model.data
        (fun m d => rfl) k
    · exact afterResample_preserves env cfg inputs _ _ _ Model.wht
        (fun m d => rfl) k
    · exact afterResample_preserves env cfg inputs _ _ _ Model.metaRef
        (fun m d => rfl) k
    · rw [afterResample_cells env cfg inputs _ _ _ r (hdz r hr)]
      exact doDrizzle_cells_lt inputs heap r hr
  | true =>
    simp only [do_detection, hres, hsave, if_true]
    cases herr : (saveMosaics env 0 (doDrizzle inputs heap).1
        (doDrizzle inputs heap).2).2.2 with
    | some e =>
      simp only [herr, Option.isSome_some, if_true]
      refine ⟨fun k => ⟨trivial, trivial, trivial⟩, fun r hr => ?_⟩
      rw [saveMosaics_cells env 0 _ _ r (hdz r hr)]
      exact doDrizzle_cells_lt inputs heap r hr
    | none =>
      simp only [herr, Option.isSome_none, Bool.false_eq_true, if_false]
      refine ⟨fun k => ⟨?_, ?_, ?_⟩, fun r hr => ?_⟩
      · exact afterResample_preserves env cfg inputs _ _ _ Model.data
          (fun m d => rfl) k
      · exact afterResample_preserves env cfg inputs _ _ _ Model.wht
          (fun m d => rfl) k
      · exact afterResample_preserves env cfg inputs _ _ _ Model.metaRef
          (fun m d => rfl) k
      · rw [afterResample_cells env cfg inputs _ _ _ r (hdz r hr)]
        rw [saveMosaics_cells env 0 _ _ r (hdz r hr)]
        exact doDrizzle_cells_lt inputs heap r hr

/-- Witness for the amended C2 at a concrete resampled run. -/
theorem C2_amended_only_dq_when_resampling_witness :
    cfgResample.resample_data = true ∧
    ((∀ k : Nat, (((do_detection envOk cfgResample [exA, exD] heap4).models)[k]?).map
          Model.data = ([exA, exD][k]?).map Model.data ∧
      (((do_detection envOk cfgResample [exA, exD] heap4).models)[k]?).map
          Model.wht = ([exA, exD][k]?).map Model.wht ∧
      (((do_detection envOk cfgResample [exA, exD] heap4).models)[k]?).map
          Model.metaRef = ([exA, exD][k]?).map Model.metaRef) ∧
    (∀ r, r < heap4.cells.length →
      (do_detection envOk cfgResample [exA, exD] heap4).heap.cells[r]? =
        heap4.cells[r]?)) :=
  ⟨rfl, C2_amended_only_dq_when_resampling envOk cfgResample [exA, exD]
    heap4 rfl⟩

/-- Claim C3 as stated is false in general: with `resample_data = False`
the median image is allocated with the FIRST exposure's shape, which
need not match every exposure's shape — here the median has 1 pixel
while the second exposure has 2. -/
theorem C3_counterexample_shape_mismatch :
    cfgNoResample.resample_data = false ∧
    exE ∈ [exA, exE] ∧
    ((do_detection envOk cfgNoResample [exA, exE] heap4).median.getD
      []).length ≠ exE.data.length := by decide

/-- Claim C3 amended: with `resample_data = False` no resampling is
performed (no resample event occurs) and the median image is allocated
with the shape of the FIRST exposure's data; it therefore matches every
exposure's native grid whenever all exposures share the first one's
shape. -/
theorem C3_amended_reference_grid (env : Env) (cfg : Config)
    (inputs : List Model) (heap : Heap)
    (hres : cfg.resample_data = false) (hne : inputs ≠ []) :
    Event.resample ∉ (do_detection env cfg inputs heap).trace ∧
    ∃ md, (do_detection env cfg inputs heap).median = some md ∧
      md.length = (inputs.headD defaultModel).data.length ∧
      ∀ m ∈ inputs,
        m.data.length = (inputs.headD defaultModel).data.length →
        md.length = m.data.length := by
  cases inputs with
  | nil => exact absurd rfl hne
  | cons m0 rest =>
    simp only [do_detection, hres, Bool.false_eq_true, if_false,
      List.map_cons]
    constructor
    · intro hmem
      rcases afterResample_events env cfg _ _ heap [] _ hmem with
        h | h | ⟨fn, h⟩ | ⟨i, h⟩ | ⟨i, h⟩ | ⟨i, h⟩ <;> simp at h
    · obtain ⟨hmedian, -, -⟩ := afterResample_success env cfg _ _ _ heap []
      refine ⟨_, hmedian, ?_, ?_⟩
      · rw [create_median_length]
        rfl
      · intro m hm hlen
        rw [create_median_length]
        simpa using hlen.symm

/-- Witness for the amended C3 at a concrete run without resampling. -/
theorem C3_amended_reference_grid_witness :
    cfgNoResample.resample_data = false ∧ ([exA, exB] : List Model) ≠ [] ∧
    (Event.resample ∉
        (do_detection envOk cfgNoResample [exA, exB] heap4).trace ∧
      ∃ md, (do_detection envOk cfgNoResample [exA, exB] heap4).median =
          some md ∧
        md.length = ([exA, exB].headD defaultModel).data.length ∧
        ∀ m ∈ [exA, exB],
          m.data.length = ([exA, exB].headD defaultModel).data.length →
          md.length = m.data.length) :=
  ⟨rfl, by decide,
   C3_amended_reference_grid envOk cfgNoResample [exA, exB] heap4 rfl
     (by decide)⟩

/-- Claim C4: per-group mosaics are persisted iff intermediate saving
is requested AND resampling was performed (and there is an input at
all); in particular with `resample_data = False` no mosaic is ever
written regardless of `save_intermediate_results`.  Writes are assumed
to succeed. -/
theorem C4_mosaic_persistence_iff (env : Env) (cfg : Config)
    (inputs : List Model) (heap : Heap)
    (hok : ∀ fn, env.saveOk fn = true) :
    ((∃ i fn, Event.saveMosaic i fn ∈
        (do_detection env cfg inputs heap).trace) ↔
      (cfg.save_intermediate_results = true ∧ cfg.resample_data = true ∧
        inputs ≠ [])) ∧
    (cfg.save_intermediate_results = true → cfg.resample_data = true →
      ∀ i, i < inputs.length → ∃ fn, Event.saveMosaic i fn ∈
        (do_detection env cfg inputs heap).trace) := by
  have hnone := saveMosaics_ok_none env hok 0 (doDrizzle inputs heap).1
    (doDrizzle inputs heap).2
  have hpos : cfg.save_intermediate_results = true →
      cfg.resample_data = true → ∀ i, i < inputs.length →
      ∃ fn, Event.saveMosaic i fn ∈
        (do_detection env cfg inputs heap).trace := by
    intro hsave hres i hi
    obtain ⟨fn, hfn⟩ := saveMosaics_ok_mem env hok 0 (doDrizzle inputs heap).1
      (doDrizzle inputs heap).2 i (by rw [doDrizzle_length]; exact hi)
    rw [Nat.zero_add] at hfn
    refine ⟨fn, ?_⟩
    simp only [do_detection, hres, hsave, if_true, hnone,
      Option.isSome_none, Bool.false_eq_true, if_false]
    exact afterResample_trace_mem env cfg _ _ _ _ _
      (List.mem_cons_of_mem _ hfn)
  refine ⟨⟨?_, ?_⟩, hpos⟩
  · rintro ⟨i, fn, hmem⟩
    cases hres : cfg.resample_data with
    | false =>
      simp only [do_detection, hres, Bool.false_eq_true, if_false] at hmem
      rcases afterResample_events env cfg _ _ heap [] _ hmem with
        h | h | ⟨f2, h⟩ | ⟨j, h⟩ | ⟨j, h⟩ | ⟨j, h⟩ <;> simp at h
    | true =>
      cases hsave : cfg.save_intermediate_results with
      | false =>
        simp only [do_detection, hres, hsave, if_true, Bool.false_eq_true,
          if_false] at hmem
        rcases afterResample_events env cfg _ _ _ [Event.resample] _ hmem
          with h | h | ⟨f2, h⟩ | ⟨j, h⟩ | ⟨j, h⟩ | ⟨j, h⟩ <;> simp at h
      | true =>
        by_cases hne : inputs = []
        · subst hne
          simp [do_detection, hres, hsave, doDrizzle, saveMosaics,
            afterResample] at hmem
        · exact ⟨rfl, rfl, hne⟩
  · rintro ⟨hsave, hres, hne⟩
    obtain ⟨fn, h⟩ := hpos hsave hres 0 (List.length_pos.mpr hne)
    exact ⟨0, fn, h⟩

/-- Witness for C4 at a concrete resampled-and-saved run. -/
theorem C4_mosaic_persistence_iff_witness :
    (∀ fn, envOk.saveOk fn = true) ∧
    (((∃ i fn, Event.saveMosaic i fn ∈
        (do_detection envOk
          { cfgResample with save_intermediate_results := true }
          [exA] heap4).trace) ↔
      (({ cfgResample with save_intermediate_results := true
          } : Config).save_intermediate_results = true ∧
        ({ cfgResample with save_intermediate_results := true
          } : Config).resample_data = true ∧ ([exA] : List Model) ≠ [])) ∧
    (({ cfgResample with save_intermediate_results := true
        } : Config).save_intermediate_results = true →
      ({ cfgResample with save_intermediate_results := true
        } : Config).resample_data = true →
      ∀ i, i < [exA].length → ∃ fn, Event.saveMosaic i fn ∈
        (do_detection envOk
          { cfgResample with save_intermediate_results := true }
          [exA] heap4).trace)) :=
  ⟨fun _ => rfl,
   C4_mosaic_persistence_iff envOk
     { cfgResample with save_intermediate_results := true } [exA] heap4
     (fun _ => rfl)⟩

/-- Claim C5: when intermediates are not persisted
(`save_intermediate_results = False`) and not retained in memory
(`in_memory = False`), every drizzled mosaic's file is removed after the
reference image is computed and before the run ends. -/
theorem C5_drizzled_files_removed (env : Env) (cfg : Config)
    (inputs : List Model) (heap : Heap)
    (hs : cfg.save_intermediate_results = false)
    (hm : cfg.in_memory = false) (hne : inputs ≠ []) :
    ∀ i, i < inputs.length → ∃ q p : Nat, q < p ∧
      (do_detection env cfg inputs heap).trace[q]? =
        some Event.createMedian ∧
      (do_detection env cfg inputs heap).trace[p]? =
        some (Event.removeFile i) := by
  intro i hi
  cases hres : cfg.resample_data with
  | false =>
    cases inputs with
    | nil => exact absurd rfl hne
    | cons m0 rest =>
      simp only [do_detection, hres, Bool.false_eq_true, if_false,
        List.map_cons]
      have h := afterResample_remove env cfg
        ({ m0 with wht := build_driz_weight cfg m0 } ::
          rest.map (fun m => { m with wht := build_driz_weight cfg m }))
        { m0 with wht := build_driz_weight cfg m0 }
        (rest.map (fun m => { m with wht := build_driz_weight cfg m }))
        heap [] hs hm i (by simpa using hi)
      exact ⟨0, 0 + 1 + i, by omega, h.1, h.2⟩
  | true =>
    have hlen := doDrizzle_length inputs heap
    cases hdz : (doDrizzle inputs heap).1 with
    | nil =>
      rw [hdz] at hlen
      exact absurd (List.eq_nil_of_length_eq_zero hlen.symm) hne
    | cons d0 ds =>
      simp only [do_detection, hres, hs, if_true, Bool.false_eq_true,
        if_false]
      rw [hdz]
      have h := afterResample_remove env cfg inputs d0 ds
        (doDrizzle inputs heap).2 [Event.resample] hs hm i
        (by rw [← hdz, hlen]; exact hi)
      exact ⟨1, 1 + 1 + i, by omega, h.1, h.2⟩

/-- Witness for C5 at a concrete run: the single drizzled file is
removed after the median is created. -/
theorem C5_drizzled_files_removed_witness :
    cfgNoResample.save_intermediate_results = false ∧
    cfgNoResample.in_memory = false ∧ ([exA] : List Model) ≠ [] ∧
    ∀ i, i < [exA].length → ∃ q p : Nat, q < p ∧
      (do_detection envOk cfgNoResample [exA] heap4).trace[q]? =
        some Event.createMedian ∧
      (do_detection envOk cfgNoResample [exA] heap4).trace[p]? =
        some (Event.removeFile i) :=
  ⟨rfl, rfl, by decide,
   C5_drizzled_files_removed envOk cfgNoResample [exA] heap4 rfl rfl
     (by decide)⟩

/-- If the tail phase ends in a persistence error, the models are
returned untouched and the trace holds nothing beyond the carried-in
prefix and the median-creation event: the run aborted at the median
write. -/
theorem afterResample_error_cases (env : Env) (cfg : Config)
    (inputs drizzled : List Model) (heap : Heap) (tr : List Event)
    (fn : String)
    (herr : (afterResample env cfg inputs drizzled heap tr).error =
      some (DetError.persistenceError fn)) :
    (afterResample env cfg inputs drizzled heap tr).models = inputs ∧
    ∀ e ∈ (afterResample env cfg inputs drizzled heap tr).trace,
      e ∈ tr ∨ e = Event.createMedian := by
  cases drizzled with
  | nil => simp [afterResample] at herr
  | cons d0 ds =>
    cases hs : cfg.save_intermediate_results with
    | true =>
      cases hok : env.saveOk (env.makeOutputPath
          ((heap.cells.getD ((inputs.headD d0).metaRef) defaultMeta).filename)
          "median") with
      | true =>
        simp only [afterResample, finishDetect, hs, hok, if_true] at herr
        simp at herr
      | false =>
        simp only [afterResample, hs, hok, if_true, Bool.false_eq_true,
          if_false]
        refine ⟨by trivial, fun e he => ?_⟩
        rcases List.mem_append.mp he with h | h
        · exact Or.inl h
        · exact Or.inr (List.mem_singleton.mp h)
    | false =>
      cases hm : cfg.in_memory with
      | true =>
        simp only [afterResample, finishDetect, hs, hm, if_true,
          Bool.false_eq_true, if_false] at herr
        simp at herr
      | false =>
        simp only [afterResample, finishDetect, hs, hm, Bool.false_eq_true,
          if_false] at herr
        simp at herr

/-- Claim C6 as stated is false: a failure writing the median image is
not recovered.  Instead of being logged and letting the run continue to
flag outliers, the write failure aborts the run with a persistence
error: no comparison event is emitted and no exposure's DQ array is
touched. -/
theorem C6_counterexample_persistence_aborts :
    (do_detection envNoSave cfgSaveNoResample [exA, exB, exC, exD]
        heap4).error = some (DetError.persistenceError "amedian") ∧
    (do_detection envNoSave cfgSaveNoResample [exA, exB, exC, exD]
        heap4).models.map Model.dq = [[0], [0], [0], [0]] ∧
    (∀ j, Event.compare j ∉
      (do_detection envNoSave cfgSaveNoResample [exA, exB, exC, exD]
        heap4).trace) := by
  refine ⟨by decide, by decide, fun j => ?_⟩
  intro hmem
  have : (do_detection envNoSave cfgSaveNoResample [exA, exB, exC, exD]
      heap4).trace = [Event.createMedian] := by decide
  rw [this] at hmem
  simp at hmem

/-- Claim C6 amended: a failure writing an optional intermediate product
(a drizzled mosaic or the median image) is fatal, not recovered: the run
aborts with the persistence error, no outlier comparison is performed,
and no DQ array is modified. -/
theorem C6_amended_persistence_fatal (env : Env) (cfg : Config)
    (inputs : List Model) (heap : Heap) (fn : String)
    (herr : (do_detection env cfg inputs heap).error =
      some (DetError.persistenceError fn)) :
    (∀ j, Event.compare j ∉ (do_detection env cfg inputs heap).trace) ∧
    (do_detection env cfg inputs heap).models.map Model.dq =
      inputs.map Model.dq := by
  cases hres : cfg.resample_data with
  | false =>
    simp only [do_detection, hres, Bool.false_eq_true, if_false] at herr ⊢
    obtain ⟨hmodels, htr⟩ := afterResample_error_cases env cfg _ _ heap []
      fn herr
    constructor
    · intro j hmem
      rcases htr _ hmem with h | h
      · simp at h
      · simp at h
    · rw [hmodels, List.map_map]
      have hcomp : (Model.dq ∘ fun m =>
          { m with wht := build_driz_weight cfg m }) = Model.dq :=
        funext fun m => rfl
      rw [hcomp]
  | true =>
    cases hsave : cfg.save_intermediate_results with
    | false =>
      simp only [do_detection, hres, hsave, if_true, Bool.false_eq_true,
        if_false] at herr ⊢
      obtain ⟨hmodels, htr⟩ := afterResample_error_cases env cfg _ _ _
        [Event.resample] fn herr
      constructor
      · intro j hmem
        rcases htr _ hmem with h | h
        · simp at h
        · simp at h
      · rw [hmodels]
    | true =>
      simp only [do_detection, hres, hsave, if_true] at herr ⊢
      cases hfail : (saveMosaics env 0 (doDrizzle inputs heap).1
          (doDrizzle inputs heap).2).2.2 with
      | some e =>
        simp only [hfail, Option.isSome_some, if_true] at herr ⊢
        refine ⟨fun j hmem => ?_, by trivial⟩
        rcases List.mem_cons.mp hmem with h | h
        · simp at h
        · rcases saveMosaics_events env 0 _ _ _ h with ⟨j2, fn2, hjj⟩
          simp at hjj
      | none =>
        simp only [hfail, Option.isSome_none, Bool.false_eq_true,
          if_false] at herr ⊢
        obtain ⟨hmodels, htr⟩ := afterResample_error_cases env cfg _ _ _
          (Event.resample :: (saveMosaics env 0 (doDrizzle inputs heap).1
            (doDrizzle inputs heap).2).2.1) fn herr
        constructor
        · intro j hmem
          rcases htr _ hmem with h | h
          · rcases List.mem_cons.mp h with h2 | h2
            · simp at h2
            · rcases saveMosaics_events env 0 _ _ _ h2 with ⟨j2, fn2, hjj⟩
              simp at hjj
          · simp at h
        · rw [hmodels]

/-- Witness for the amended C6 at the concrete failing-writer run. -/
theorem C6_amended_persistence_fatal_witness :
    (do_detection envNoSave cfgSaveNoResample [exA, exB, exC, exD]
        heap4).error = some (DetError.persistenceError "amedian") ∧
    ((∀ j, Event.compare j ∉
        (do_detection envNoSave cfgSaveNoResample [exA, exB, exC, exD]
          heap4).trace) ∧
      (do_detection envNoSave cfgSaveNoResample [exA, exB, exC, exD]
          heap4).models.map Model.dq =
        [exA, exB, exC, exD].map Model.dq) :=
  ⟨by decide,
   C6_amended_persistence_fatal envNoSave cfgSaveNoResample
     [exA, exB, exC, exD] heap4 "amedian" (by decide)⟩

/-- Claim C10: `median_model.meta = drizzled_models[0].meta` assigns by
reference: the median model's metadata is the very cell of the first
drizzled model, so writing the median output filename into
`median_model.meta.filename` rewrites the first drizzled model's
metadata — and, when `resample_data` is false, the drizzled sequence is
the input sequence itself, so the FIRST INPUT exposure's metadata
filename becomes the median output path. -/
theorem C10_median_meta_aliasing (env : Env) (cfg : Config)
    (inputs : List Model) (heap : Heap)
    (hne : inputs ≠ []) (hok : ∀ fn, env.saveOk fn = true)
    (hwf : (inputs.headD defaultModel).metaRef < heap.cells.length) :
    (do_detection env cfg inputs heap).medianMetaRef =
      some (firstDrizzledRef cfg inputs heap) ∧
    (∃ b, (do_detection env cfg inputs
        heap).heap.cells[firstDrizzledRef cfg inputs heap]? =
      some { filename := env.makeOutputPath b "median" }) ∧
    (cfg.resample_data = false →
      firstDrizzledRef cfg inputs heap =
        (inputs.headD defaultModel).metaRef ∧
      (do_detection env cfg inputs
          heap).heap.cells[(inputs.headD defaultModel).metaRef]? =
        some { filename := env.makeOutputPath
                ((heap.cells.getD ((inputs.headD defaultModel).metaRef)
                  defaultMeta).filename) "median" }) := by
  cases hres : cfg.resample_data with
  | false =>
    cases inputs with
    | nil => exact absurd rfl hne
    | cons m0 rest =>
      have hfdr : firstDrizzledRef cfg (m0 :: rest) heap = m0.metaRef := by
        simp [firstDrizzledRef, hres]
      simp only [do_detection, hres, Bool.false_eq_true, if_false,
        List.map_cons]
      obtain ⟨-, hmref, hcells⟩ := afterResample_success env cfg
        ({ m0 with wht := build_driz_weight cfg m0 } ::
          rest.map (fun m => { m with wht := build_driz_weight cfg m }))
        { m0 with wht := build_driz_weight cfg m0 }
        (rest.map (fun m => { m with wht := build_driz_weight cfg m }))
        heap []
      have hget : (heap.cells.set m0.metaRef
          { filename := env.makeOutputPath
              ((heap.cells.getD m0.metaRef defaultMeta).filename)
              "median" })[m0.metaRef]? =
          some { filename := env.makeOutputPath
                  ((heap.cells.getD m0.metaRef defaultMeta).filename)
                  "median" } :=
        List.getElem?_set_self (by simpa using hwf)
      refine ⟨?_, ?_, fun _ => ⟨hfdr, ?_⟩⟩
      · rw [hmref, hfdr]
      · refine ⟨(heap.cells.getD m0.metaRef defaultMeta).filename, ?_⟩
        rw [hcells, hfdr]
        exact hget
      · rw [hcells]
        exact hget
  | true =>
    have hlen := doDrizzle_length inputs heap
    have hfdr : firstDrizzledRef cfg inputs heap = heap.cells.length := by
      simp [firstDrizzledRef, hres]
    cases hdz : (doDrizzle inputs heap).1 with
    | nil =>
      rw [hdz] at hlen
      exact absurd (List.eq_nil_of_length_eq_zero hlen.symm) hne
    | cons d0 ds =>
      have hd0 : d0.metaRef = heap.cells.length := by
        have h0 := doDrizzle_models inputs heap 0
          (List.length_pos.mpr hne)
        rw [hdz] at h0
        simp only [List.getElem?_cons_zero, Option.some.injEq] at h0
        rw [h0]
        simp
      cases hsave : cfg.save_intermediate_results with
      | false =>
        simp only [do_detection, hres, hsave, if_true, Bool.false_eq_true,
          if_false]
        rw [hdz]
        obtain ⟨-, hmref, hcells⟩ := afterResample_success env cfg inputs
          d0 ds (doDrizzle inputs heap).2 [Event.resample]
        refine ⟨?_, ?_, fun h2 => absurd h2 (by decide)⟩
        · rw [hmref, hd0, hfdr]
        · refine ⟨((doDrizzle inputs heap).2.cells.getD
            ((inputs.headD d0).metaRef) defaultMeta).filename, ?_⟩
          rw [hcells, hfdr, ← hd0]
          refine List.getElem?_set_self ?_
          rw [hd0, doDrizzle_cells_length]
          have := List.length_pos.mpr hne
          omega
      | true =>
        have hnone := saveMosaics_ok_none env hok 0
          (doDrizzle inputs heap).1 (doDrizzle inputs heap).2
        simp only [do_detection, hres, hsave, if_true, hnone,
          Option.isSome_none, Bool.false_eq_true, if_false]
        rw [hdz]
        obtain ⟨-, hmref, hcells⟩ := afterResample_success env cfg inputs
          d0 ds (saveMosaics env 0 (d0 :: ds) (doDrizzle inputs heap).2).1
          (Event.resample :: (saveMosaics env 0 (d0 :: ds)
            (doDrizzle inputs heap).2).2.1)
        refine ⟨?_, ?_, fun h2 => absurd h2 (by decide)⟩
        · rw [hmref, hd0, hfdr]
        · refine ⟨((saveMosaics env 0 (d0 :: ds)
              (doDrizzle inputs heap).2).1.cells.getD
              ((inputs.headD d0).metaRef) defaultMeta).filename, ?_⟩
          rw [hcells, hfdr, ← hd0]
          refine List.getElem?_set_self ?_
          rw [hd0, saveMosaics_cells_length, doDrizzle_cells_length]
          have := List.length_pos.mpr hne
          omega

/-- Witness for C10 at a concrete run without resampling: the median
metadata reference is exposure 1's own cell, which afterwards holds the
median output path. -/
theorem C10_median_meta_aliasing_witness :
    ([exA, exB] : List Model) ≠ [] ∧
    (∀ fn, envOk.saveOk fn = true) ∧
    ([exA, exB].headD defaultModel).metaRef < heap4.cells.length ∧
    ((do_detection envOk cfgNoResample [exA, exB] heap4).medianMetaRef =
      some (firstDrizzledRef cfgNoResample [exA, exB] heap4) ∧
    (∃ b, (do_detection envOk cfgNoResample [exA, exB]
        heap4).heap.cells[firstDrizzledRef cfgNoResample [exA, exB]
          heap4]? =
      some { filename := envOk.makeOutputPath b "median" }) ∧
    (cfgNoResample.resample_data = false →
      firstDrizzledRef cfgNoResample [exA, exB] heap4 =
        ([exA, exB].headD defaultModel).metaRef ∧
      (do_detection envOk cfgNoResample [exA, exB]
          heap4).heap.cells[([exA, exB].headD defaultModel).metaRef]? =
        some { filename := envOk.makeOutputPath
                ((heap4.cells.getD (([exA, exB].headD defaultModel).metaRef)
                  defaultMeta).filename) "median" })) :=
  ⟨by decide, fun _ => rfl, by decide,
   C10_median_meta_aliasing envOk cfgNoResample [exA, exB] heap4
     (by decide) (fun _ => rfl) (by decide)⟩

end OutlierSpec
